import Mathlib

/-!
Shallow embedding of the marshaling layer of `dbus-native`
(src/writer.rs, src/type_system.rs, src/message.rs), together with
theorems settling the frozen claims about the natural-language
specification of the repository.

Conventions of the embedding:
* the byte sink of `DbusWriter<T: io::Write>` is a `List Nat` of bytes
  (each byte a `Nat` below 256) to which writes append;
* Rust machine integers are `Nat` bit patterns, reduced with `% 2 ^ w`
  exactly where the Rust types force a reduction;
* every `write_*` method returns the pair (new sink contents, the `u64`
  value the Rust function returns) — the returned count is modelled
  exactly as the source computes it, in particular it does NOT include
  padding when the source does not include it;
* fallible operations return `Except IoError`, mirroring
  `Result<_, std::io::Error>`.
-/

namespace DbusNative

/-- The byte-order parameter of the `byteorder` crate (`LittleEndian` / `BigEndian`). -/
inductive Endianness where
  | littleEndian
  | bigEndian
deriving DecidableEq, Repr

/-- Little-endian byte decomposition of `n` into `w` bytes (byte `i` is
`n / 256 ^ i % 256`, exactly the bytes `byteorder` emits for the `w`-byte
write of the bit pattern `n`). -/
def leBytes (w n : Nat) : List Nat :=
  (List.range w).map fun i => n / 256 ^ i % 256

/-- Bytes emitted by `byteorder` for a `w`-byte integer with bit pattern `n`
under byte order `e`. -/
def encodeInt (e : Endianness) (w n : Nat) : List Nat :=
  match e with
  | .littleEndian => leBytes w n
  | .bigEndian => (leBytes w n).reverse

/-- Model of `std::io::ErrorKind` values used by the source. -/
inductive ErrorKind where
  | invalidInput
deriving DecidableEq, Repr

/-- Model of `std::io::Error`: a kind plus the optional message passed to
`io::Error::new` (absent for `io::Error::from(kind)`). -/
structure IoError where
  kind : ErrorKind
  msg : Option String
deriving DecidableEq, Repr

/-- Rust `DbusWriter::write_padding`: emits
`(align_to - bytes_written % align_to) % align_to` zero bytes and returns
that count (the source returns it as a `u8`). -/
def write_padding (sink : List Nat) (bytes_written align_to : Nat) : List Nat × Nat :=
  let padding_length := (align_to - bytes_written % align_to) % align_to
  (sink ++ List.replicate padding_length 0, padding_length)

/-- Rust `DbusWriter::write_u8`: emits one byte, returns 1. -/
def write_u8 (sink : List Nat) (n : Nat) : List Nat × Nat :=
  (sink ++ [n % 256], 1)

/-- Rust `DbusWriter::write_u16`: pads to 2 relative to `bytes_written`, emits the
two value bytes, returns `16 / 8 = 2` (the source discards the padding count
returned by `write_padding`). -/
def write_u16 (e : Endianness) (sink : List Nat) (u bytes_written : Nat) : List Nat × Nat :=
  let p := write_padding sink bytes_written 2
  (p.1 ++ encodeInt e 2 u, 16 / 8)

/-- Rust `DbusWriter::write_i16`: same shape as `write_u16` over the 16-bit
twos-complement bit pattern. -/
def write_i16 (e : Endianness) (sink : List Nat) (i bytes_written : Nat) : List Nat × Nat :=
  let p := write_padding sink bytes_written 2
  (p.1 ++ encodeInt e 2 i, 16 / 8)

/-- Rust `DbusWriter::write_u32`: pads to 4, emits four value bytes, returns
`32 / 8 = 4` (padding count discarded). -/
def write_u32 (e : Endianness) (sink : List Nat) (u bytes_written : Nat) : List Nat × Nat :=
  let p := write_padding sink bytes_written 4
  (p.1 ++ encodeInt e 4 u, 32 / 8)

/-- Rust `DbusWriter::write_i32`: same shape as `write_u32` over the bit pattern. -/
def write_i32 (e : Endianness) (sink : List Nat) (i bytes_written : Nat) : List Nat × Nat :=
  let p := write_padding sink bytes_written 4
  (p.1 ++ encodeInt e 4 i, 32 / 8)

/-- Rust `DbusWriter::write_u64`: pads to 8, emits eight value bytes, returns
`64 / 8 = 8` (padding count discarded). -/
def write_u64 (e : Endianness) (sink : List Nat) (u bytes_written : Nat) : List Nat × Nat :=
  let p := write_padding sink bytes_written 8
  (p.1 ++ encodeInt e 8 u, 64 / 8)

/-- Rust `DbusWriter::write_i64`: same shape as `write_u64` over the bit pattern. -/
def write_i64 (e : Endianness) (sink : List Nat) (i bytes_written : Nat) : List Nat × Nat :=
  let p := write_padding sink bytes_written 8
  (p.1 ++ encodeInt e 8 i, 64 / 8)

/-- Rust `DbusWriter::write_boolean`: `write_u32` of `b as u32`. -/
def write_boolean (e : Endianness) (sink : List Nat) (b : Bool) (bytes_written : Nat) :
    List Nat × Nat :=
  write_u32 e sink (if b then 1 else 0) bytes_written

/-- Rust `DbusWriter::write_string`. The source shadows the `bytes_written`
parameter with a fresh local `let mut bytes_written = 0;`, so the passed-in
offset is ignored entirely; it then writes the `u32` length prefix (aligned
relative to the shadowed 0), the raw bytes of `s`, and a terminating
byte 10, the LF character, returning `4 + s.len() + 1`. -/
def write_string (e : Endianness) (sink : List Nat) (s : List Nat)
    (bytes_written : Nat) : List Nat × Nat :=
  let r1 := write_u32 e sink (s.length % 2 ^ 32) 0
  let bw := 0 + r1.2
  let sink2 := r1.1 ++ s
  let bw := bw + s.length
  let r2 := write_u8 sink2 10
  (r2.1, bw + r2.2)

/-- Rust `ObjectPath` from src/type_system.rs: a newtype over a string, modelled
as its byte sequence. -/
structure ObjectPath where
  str : List Nat
deriving DecidableEq, Repr

/-- Rust `Signature` from src/type_system.rs: a newtype over a string, modelled as
its byte sequence. -/
structure Signature where
  str : List Nat
deriving DecidableEq, Repr

/-- Rust `DbusWriter::write_object_path`: delegates to `write_string`. -/
def write_object_path (e : Endianness) (sink : List Nat) (object_path : ObjectPath)
    (bytes_written : Nat) : List Nat × Nat :=
  write_string e sink object_path.str bytes_written

/-- Rust `DbusWriter::write_signature`: the source delegates to `write_string`
(despite its doc comment promising a single-byte length prefix). -/
def write_signature (e : Endianness) (sink : List Nat) (signature : Signature)
    (bytes_written : Nat) : List Nat × Nat :=
  write_string e sink signature.str bytes_written

/-- Rust `DbusWriter::write_array`. The source shadows `bytes_written` with 0,
writes `a.len() as u32` as the prefix, then folds the `write` of each element
through the running local count. `enc` stands for the element type
method `DbusWrite::write` (element, sink, bytes_written). -/
def write_array {α : Type} (e : Endianness) (enc : α → List Nat → Nat → List Nat × Nat)
    (sink : List Nat) (a : List α) (bytes_written : Nat) : List Nat × Nat :=
  let r1 := write_u32 e sink (a.length % 2 ^ 32) 0
  a.foldl (fun acc x => let r := enc x acc.1 acc.2; (r.1, acc.2 + r.2)) (r1.1, 0 + r1.2)

/-- Rust `Serial` from src/type_system.rs: newtype over `u32`. -/
structure Serial where
  val : Nat
deriving DecidableEq, Repr

/-- Rust `TryFrom<u32> for Serial`: fails with `io::Error::from(InvalidInput)` on
zero, otherwise wraps the value. -/
def Serial.tryFrom (s : Nat) : Except IoError Serial :=
  if s = 0 then .error ⟨.invalidInput, none⟩ else .ok ⟨s⟩

/-- Rust `impl DbusWrite for Serial`: `write_u32` of the wrapped value. -/
def Serial.write (e : Endianness) (s : Serial) (sink : List Nat) (bytes_written : Nat) :
    List Nat × Nat :=
  write_u32 e sink s.val bytes_written

/-- Rust `impl ToTypeCode for u8`: constant code "y". -/
def typeCode_u8 (_ : Nat) : String := "y"

/-- Rust `impl ToTypeCode for String` / `&str`: constant code "s". -/
def typeCode_str (_ : String) : String := "s"

/-- Rust `impl<T: ToTypeCode> ToTypeCode for Vec<T>`: starts from "a" and appends
the type code of EVERY element of the vector in turn (`for x in self.iter()`),
where `elemCode` stands for the `to_type_code` of the element type. -/
def vecToTypeCode {α : Type} (elemCode : α → String) (v : List α) : String :=
  v.foldl (fun type_code x => type_code ++ elemCode x) ("" ++ "a")

/-- Rust `impl ToTypeCode for HashMap<K, V, S>`: an opening brace, then — only if
`iter().next()` yields a first live entry — the type codes of the key and the value,
then a closing brace. The map is modelled as its iteration sequence of
entries. -/
def hashMapToTypeCode {κ ν : Type} (keyCode : κ → String) (valCode : ν → String)
    (entries : List (κ × ν)) : String :=
  let mid :=
    match entries with
    | [] => ""
    | (k, v) :: _ => keyCode k ++ valCode v
  "\x7b" ++ mid ++ "\x7d"

/-- Rust `MAX_MESSAGE_SIZE` from src/message.rs: the source writes `2 ^ 27`, which
in Rust is bitwise XOR on integers, not exponentiation. -/
def MAX_MESSAGE_SIZE : Nat := Nat.xor 2 27

/-- Rust `EndianessFlag` from src/message.rs. -/
inductive EndianessFlag where
  | littleEndian
  | bigEndian
deriving DecidableEq, Repr

/-- Discriminant bytes of `EndianessFlag`: ASCII l (108) / ASCII B (66). -/
def EndianessFlag.byte : EndianessFlag → Nat
  | .littleEndian => 108
  | .bigEndian => 66

/-- Rust `MessageType` from src/message.rs. -/
inductive MessageType where
  | invalid
  | methodCall
  | methodReturn
  | error
  | signal
deriving DecidableEq, Repr

/-- Discriminant bytes of `MessageType` (`#[repr(u8)]`). -/
def MessageType.byte : MessageType → Nat
  | .invalid => 0
  | .methodCall => 1
  | .methodReturn => 2
  | .error => 3
  | .signal => 4

/-- Rust `HeaderFieldCode` from src/message.rs. -/
inductive HeaderFieldCode where
  | invalid
  | path
  | interface
  | member
  | errorName
  | replySerial
  | destination
  | sender
  | signature
  | unixFds
deriving DecidableEq, Repr

/-- Discriminant bytes of `HeaderFieldCode` (`#[repr(u8)]`, 0 through 9). -/
def HeaderFieldCode.byte : HeaderFieldCode → Nat
  | .invalid => 0
  | .path => 1
  | .interface => 2
  | .member => 3
  | .errorName => 4
  | .replySerial => 5
  | .destination => 6
  | .sender => 7
  | .signature => 8
  | .unixFds => 9

/-- Modelled from the spec: the module `names` (`InterfaceName`) is not under
src/; per the spec, header-field name payloads are owned strings encoded with
the string rule. -/
structure InterfaceName where
  str : List Nat
deriving DecidableEq, Repr

/-- Modelled from the spec: the module `names` (`MemberName`) is not under
src/; a string newtype encoded with the string rule. -/
structure MemberName where
  str : List Nat
deriving DecidableEq, Repr

/-- Modelled from the spec: the module `names` (`ErrorName`) is not under
src/; a string newtype encoded with the string rule. -/
structure ErrorName where
  str : List Nat
deriving DecidableEq, Repr

/-- Rust `HeaderField` from src/message.rs: a tagged union of the nine field kinds
plus `Invalid`. -/
inductive HeaderField where
  | invalid
  | path (p : ObjectPath)
  | interface (i : InterfaceName)
  | member (m : MemberName)
  | errorName (n : ErrorName)
  | replySerial (s : Serial)
  | destination (d : List Nat)
  | sender (s : List Nat)
  | signature (g : Signature)
  | unixFds (fd : Nat)
deriving DecidableEq, Repr

/-- Rust `impl DbusWrite for HeaderField`: `Invalid` fails with an invalid-input
`io::Error`; every other variant delegates to the writer method for its
payload (strings via `write_string`, `ReplySerial` and `UnixFds` via
`write_u32`, `Signature` via `write_signature`). -/
def headerField_write (e : Endianness) (f : HeaderField) (sink : List Nat)
    (bytes_written : Nat) : Except IoError (List Nat × Nat) :=
  match f with
  | .invalid => .error ⟨.invalidInput, some "HeaderField::Invalid can not be marshaled!"⟩
  | .path p => .ok (write_object_path e sink p bytes_written)
  | .interface i => .ok (write_string e sink i.str bytes_written)
  | .member m => .ok (write_string e sink m.str bytes_written)
  | .errorName n => .ok (write_string e sink n.str bytes_written)
  | .replySerial s => .ok (s.write e sink bytes_written)
  | .destination d => .ok (write_string e sink d bytes_written)
  | .sender s => .ok (write_string e sink s bytes_written)
  | .signature g => .ok (write_signature e sink g bytes_written)
  | .unixFds fd => .ok (write_u32 e sink fd bytes_written)

/-- Rust `Header` from src/message.rs. -/
structure Header where
  endianess_flag : EndianessFlag
  message_type : MessageType
  flags : Nat
  major_protocol_version : Nat
  length_message_body : Nat
  serial : Serial
  header_fields : List (HeaderFieldCode × HeaderField)
deriving DecidableEq, Repr

/-- The header-field loop of `Header::write`: for each pair, one byte of
field code followed by the field value, accumulating `bytes_written`. -/
def writeHeaderFields (e : Endianness) :
    List (HeaderFieldCode × HeaderField) → List Nat → Nat → Except IoError (List Nat × Nat)
  | [], sink, bw => .ok (sink, bw)
  | (c, f) :: rest, sink, bw =>
    let r1 := write_u8 sink c.byte
    let bw1 := bw + r1.2
    match headerField_write e f r1.1 bw1 with
    | .error err => .error err
    | .ok (sink2, n) => writeHeaderFields e rest sink2 (bw1 + n)

/-- Rust `impl DbusWrite for Header`: the four fixed bytes, body length and serial
as `u32`, the header-field array, then `write_padding` to a multiple of 8 —
whose returned padding count the source DISCARDS — and finally returns the
accumulated `bytes_written`, which therefore excludes the closing padding. -/
def header_write (e : Endianness) (h : Header) (sink : List Nat) :
    Except IoError (List Nat × Nat) :=
  let r1 := write_u8 sink h.endianess_flag.byte
  let bw := r1.2
  let r2 := write_u8 r1.1 h.message_type.byte
  let bw := bw + r2.2
  let r3 := write_u8 r2.1 h.flags
  let bw := bw + r3.2
  let r4 := write_u8 r3.1 h.major_protocol_version
  let bw := bw + r4.2
  let r5 := write_u32 e r4.1 h.length_message_body bw
  let bw := bw + r5.2
  let r6 := write_u32 e r5.1 h.serial.val bw
  let bw := bw + r6.2
  match writeHeaderFields e h.header_fields r6.1 bw with
  | .error err => .error err
  | .ok (sink7, bw7) =>
    let r8 := write_padding sink7 bw7 8
    .ok (r8.1, bw7)

/-- Rust `Body` from src/message.rs: an empty struct. -/
structure Body where
deriving DecidableEq, Repr

/-- Rust `impl DbusWrite for Body`: writes nothing, returns `Ok(0)`. -/
def body_write (_ : Body) (sink : List Nat) : List Nat × Nat :=
  (sink, 0)

/-- Rust `Message` from src/message.rs. -/
structure Message where
  header : Header
  body : Body
deriving DecidableEq, Repr

/-- Rust `Message::write`: starts a fresh `bytes_written = 0` counter, selects the
byte order from `header.endianess_flag`, writes the header then the body with
that order, and returns the sum of the two returned counts. No size check of
any kind is performed. -/
def message_write (m : Message) (sink : List Nat) : Except IoError (List Nat × Nat) :=
  match m.header.endianess_flag with
  | .littleEndian =>
    match header_write .littleEndian m.header sink with
    | .error err => .error err
    | .ok (sink1, n1) =>
      let r2 := body_write m.body sink1
      .ok (r2.1, n1 + r2.2)
  | .bigEndian =>
    match header_write .bigEndian m.header sink with
    | .error err => .error err
    | .ok (sink1, n1) =>
      let r2 := body_write m.body sink1
      .ok (r2.1, n1 + r2.2)

/-- A little-endian signal message carrying one `Destination` header field
with payload `s`; letting the payload grow makes the total encoded size
arbitrarily large. -/
def msgWithDestination (s : List Nat) : Message :=
  { header :=
      { endianess_flag := .littleEndian
        message_type := .signal
        flags := 1
        major_protocol_version := 1
        length_message_body := 0
        serial := ⟨1⟩
        header_fields := [(.destination, .destination s)] }
    body := {} }

/-- The header built by the repository test `test_add` in src/message.rs:
big-endian, `Signal`, `NO_AUTO_START` (bit 0x1), protocol version 1, empty
body, serial 1, no header fields. -/
def signalHeader : Header :=
  { endianess_flag := .bigEndian
    message_type := .signal
    flags := 1
    major_protocol_version := 1
    length_message_body := 0
    serial := ⟨1⟩
    header_fields := [] }

/-- The message built by the repository test `test_add`. -/
def signalMessage : Message :=
  { header := signalHeader, body := {} }

/-- C2. The claim says `write_string` emits a 4-byte length prefix at 4-byte
alignment, the raw bytes, then exactly one NUL (0x00) terminator. In the code
the terminator is byte 10 (LF, from the literal in the source), and the
passed-in offset is shadowed by a local zero, so no alignment padding is ever
emitted: the empty string at offset 0 encodes to `[0,0,0,0,10]` (terminator
10, not 0), a one-byte string at offset 1 gets no leading padding, and the
output is entirely independent of the offset argument. -/
theorem write_string_terminator_is_lf :
    write_string .littleEndian [] [] 0 = ([0, 0, 0, 0, 10], 5) ∧
    write_string .littleEndian [] [65] 1 = ([1, 0, 0, 0, 65, 10], 6) ∧
    ∀ (e : Endianness) (sink s : List Nat) (k1 k2 : Nat),
      write_string e sink s k1 = write_string e sink s k2 :=
  ⟨rfl, rfl, fun _ _ _ _ _ => rfl⟩

/-- C3. The claim says `Header::write` returns a byte count that includes the
final 8-byte alignment padding. On the header of the repository test
(big-endian signal, no header fields) the code emits 16 bytes — the 12 header
bytes plus 4 padding zeros — but returns 12, because the count returned by
`write_padding` is discarded; `Message::write` then propagates the same 12. -/
theorem header_write_count_excludes_padding :
    header_write .bigEndian signalHeader [] =
      Except.ok ([66, 4, 1, 1, 0, 0, 0, 0, 0, 0, 0, 1, 0, 0, 0, 0], 12) ∧
    message_write signalMessage [] =
      Except.ok ([66, 4, 1, 1, 0, 0, 0, 0, 0, 0, 0, 1, 0, 0, 0, 0], 12) :=
  ⟨rfl, rfl⟩

/-- C4. The claim says each fixed-width write returns the number of bytes
emitted INCLUDING the inserted padding. The code does emit exactly
`(boundary - k % boundary) % boundary` zeros before the value, but returns
only the width of the value: at offset 1 `write_u16` emits 3 bytes yet
returns 2, at offset 1 `write_u32` emits 7 bytes yet returns 4, and at
offset 4 `write_u64` emits 12 bytes yet returns 8. -/
theorem fixed_width_return_excludes_padding :
    write_u16 .littleEndian [] 5 1 = ([0, 5, 0], 2) ∧
    write_u32 .littleEndian [] 7 1 = ([0, 0, 0, 7, 0, 0, 0], 4) ∧
    write_u64 .littleEndian [] 9 4 = ([0, 0, 0, 0, 9, 0, 0, 0, 0, 0, 0, 0], 8) ∧
    write_i16 .littleEndian [] 5 1 = ([0, 5, 0], 2) ∧
    write_i32 .littleEndian [] 7 1 = ([0, 0, 0, 7, 0, 0, 0], 4) ∧
    write_i64 .littleEndian [] 9 4 = ([0, 0, 0, 0, 9, 0, 0, 0, 0, 0, 0, 0], 8) :=
  ⟨rfl, rfl, rfl, rfl, rfl, rfl⟩

/-- C5. The claim says the 4-byte array prefix holds the byte length of the
encoded element data. The code writes `a.len()` — the element COUNT: an array
of two `Serial` values (8 bytes of element data) gets the prefix 2, and no
padding to the element alignment boundary is emitted between prefix and
elements. -/
theorem write_array_prefix_is_element_count :
    write_array .littleEndian (fun s sink k => Serial.write .littleEndian s sink k)
      [] [⟨1⟩, ⟨2⟩] 0 = ([2, 0, 0, 0, 1, 0, 0, 0, 2, 0, 0, 0], 12) :=
  rfl

/-- C6. The claim says the type code of a non-empty vector is "a" followed by
the single element code, independent of length. The code appends the code of
EVERY element: the two-element string vector of the repository test yields
"ass" (the test itself asserts this), the one-element vector yields "as", and
the two results differ, so the derived code depends on the length. -/
theorem vec_type_code_depends_on_length :
    vecToTypeCode typeCode_str ["Value1", "Value2"] = "ass" ∧
    vecToTypeCode typeCode_str ["Value1"] = "as" ∧
    vecToTypeCode typeCode_str ["Value1", "Value2"] ≠
      vecToTypeCode typeCode_str ["Value1"] := by
  refine ⟨rfl, rfl, ?_⟩
  decide

/-- C7. The claim says even an empty mapping derives the full type code from
the static key and value types. The code samples the first live entry: the
empty byte-to-string map yields the degenerate code consisting of the two
braces alone, not the code the claim requires, while a one-entry map yields
the full code. -/
theorem hashmap_empty_type_code_degenerate :
    hashMapToTypeCode typeCode_u8 typeCode_str ([] : List (Nat × String)) = "\x7b\x7d" ∧
    hashMapToTypeCode typeCode_u8 typeCode_str [(1, "Value_1")] = "\x7bys\x7d" ∧
    hashMapToTypeCode typeCode_u8 typeCode_str ([] : List (Nat × String)) ≠
      "\x7b" ++ typeCode_u8 1 ++ typeCode_str "Value_1" ++ "\x7d" := by
  refine ⟨rfl, rfl, ?_⟩
  decide

/-- C8. The claim says `write_signature` emits a single-byte length prefix.
The code delegates to `write_string`, so the empty signature encodes to 5
bytes — a 4-byte length prefix plus the (LF) terminator — and in general the
signature encoding is identical to the string encoding. -/
theorem write_signature_has_four_byte_length :
    write_signature .littleEndian [] ⟨[]⟩ 0 = ([0, 0, 0, 0, 10], 5) ∧
    write_signature .littleEndian [] ⟨[103]⟩ 0 = ([1, 0, 0, 0, 103, 10], 6) ∧
    ∀ (e : Endianness) (sink : List Nat) (g : Signature) (k : Nat),
      write_signature e sink g k = write_string e sink g.str k :=
  ⟨rfl, rfl, fun _ _ _ _ => rfl⟩

/-- C9. `Serial::try_from(0)` fails with an invalid-input error; for every
non-zero `u32` value `n` it succeeds and the resulting `Serial` carries
exactly `n`; and encoding `HeaderField::Invalid` fails with an invalid-input
error (it is never silently skipped). -/
theorem serial_try_from_and_invalid_field :
    Serial.tryFrom 0 = .error ⟨.invalidInput, none⟩ ∧
    (∀ n : Nat, 0 < n → n < 2 ^ 32 → Serial.tryFrom n = .ok ⟨n⟩) ∧
    ∀ (e : Endianness) (sink : List Nat) (k : Nat),
      headerField_write e .invalid sink k =
        .error ⟨.invalidInput, some "HeaderField::Invalid can not be marshaled!"⟩ := by
  refine ⟨rfl, ?_, fun _ _ _ => rfl⟩
  intro n hpos _
  simp [Serial.tryFrom, Nat.pos_iff_ne_zero.mp hpos]

/-- Witness for C9: the theorem applied at the concrete serial 3. -/
theorem serial_try_from_witness : Serial.tryFrom 3 = .ok ⟨3⟩ :=
  serial_try_from_and_invalid_field.2.1 3 (by decide) (by decide)

/-- C1. The claim says the size-limit constant equals 134217728 and that
`Message::write` rejects any over-limit message before writing a byte. In the
code `MAX_MESSAGE_SIZE` is `2 ^ 27` with the Rust XOR operator, which is 25,
and `Message::write` performs no size check at all: for EVERY destination
payload `s` — of any length, in particular beyond 2^27 — the write succeeds
and emits at least `18 + s.length` bytes (returning exactly `18 + s.length`),
and already a 40-byte payload makes the write emit more than
`MAX_MESSAGE_SIZE` bytes while still succeeding. -/
theorem max_message_size_unenforced :
    MAX_MESSAGE_SIZE = 25 ∧
    (∀ s : List Nat, ∃ bytes n,
      message_write (msgWithDestination s) [] = Except.ok (bytes, n) ∧
      n = 18 + s.length ∧ 18 + s.length ≤ bytes.length) ∧
    ∃ bytes n,
      message_write (msgWithDestination (List.replicate 40 65)) [] = Except.ok (bytes, n) ∧
      MAX_MESSAGE_SIZE < bytes.length := by
  refine ⟨by decide, fun s => ⟨_, _, rfl, ?_, ?_⟩, ⟨_, _, rfl, by decide⟩⟩
  · simp [msgWithDestination, message_write, header_write, writeHeaderFields,
      headerField_write, body_write, write_string, write_u32, write_u8,
      write_padding, encodeInt, leBytes]
    omega
  · simp [msgWithDestination, message_write, header_write, writeHeaderFields,
      headerField_write, body_write, write_string, write_u32, write_u8,
      write_padding, encodeInt, leBytes, List.length_append]
    omega

/-- The writer only appends: `write_u8` on any sink is `write_u8` on the
empty sink, prefixed by the prior contents. -/
theorem write_u8_append (sink : List Nat) (n : Nat) :
    write_u8 sink n = (sink ++ (write_u8 [] n).1, (write_u8 [] n).2) := by
  simp [write_u8]

/-- The writer only appends: `write_u32` on any sink is `write_u32` on the
empty sink, prefixed by the prior contents. -/
theorem write_u32_append (e : Endianness) (sink : List Nat) (u k : Nat) :
    write_u32 e sink u k = (sink ++ (write_u32 e [] u k).1, (write_u32 e [] u k).2) := by
  simp [write_u32, write_padding]

/-- The writer only appends: `write_string` on any sink is `write_string` on
the empty sink, prefixed by the prior contents. -/
theorem write_string_append (e : Endianness) (sink s : List Nat) (k : Nat) :
    write_string e sink s k =
      (sink ++ (write_string e [] s k).1, (write_string e [] s k).2) := by
  simp [write_string, write_u32, write_u8, write_padding]

/-- Header-field encoding only appends to the sink, and its outcome (failure,
emitted bytes, returned count) is independent of the prior sink contents. -/
theorem headerField_write_append (e : Endianness) (f : HeaderField) (sink : List Nat)
    (k : Nat) :
    headerField_write e f sink k =
      Except.map (fun r => (sink ++ r.1, r.2)) (headerField_write e f [] k) := by
  cases f <;>
    simp [headerField_write, Except.map, write_object_path, write_signature,
      Serial.write, write_string, write_u32, write_u8, write_padding]

/-- The header-field loop only appends to the sink, and its outcome is
independent of the prior sink contents. -/
theorem writeHeaderFields_append (e : Endianness)
    (fs : List (HeaderFieldCode × HeaderField)) :
    ∀ (sink : List Nat) (bw : Nat),
      writeHeaderFields e fs sink bw =
        Except.map (fun r => (sink ++ r.1, r.2)) (writeHeaderFields e fs [] bw) := by
  induction fs with
  | nil =>
    intro sink bw
    simp [writeHeaderFields, Except.map]
  | cons cf rest ih =>
    intro sink bw
    obtain ⟨c, f⟩ := cf
    simp only [writeHeaderFields, write_u8]
    rw [headerField_write_append e f (sink ++ [c.byte % 256]),
      headerField_write_append e f ([] ++ [c.byte % 256])]
    cases hf : headerField_write e f [] (bw + 1) with
    | error err => simp [Except.map]
    | ok r =>
      obtain ⟨b, n⟩ := r
      simp only [Except.map]
      rw [ih (sink ++ [c.byte % 256] ++ b), ih ([] ++ [c.byte % 256] ++ b)]
      cases writeHeaderFields e rest [] (bw + 1 + n) with
      | error err => simp [Except.map]
      | ok r2 => simp [Except.map, List.append_assoc]

/-- Header encoding only appends to the sink, and its outcome is independent
of the prior sink contents. -/
theorem header_write_append (e : Endianness) (h : Header) (sink : List Nat) :
    header_write e h sink =
      Except.map (fun r => (sink ++ r.1, r.2)) (header_write e h []) := by
  simp only [header_write, write_u8, write_u32, write_padding]
  nth_rewrite 1 [writeHeaderFields_append e h.header_fields]
  nth_rewrite 2 [writeHeaderFields_append e h.header_fields]
  cases hW : writeHeaderFields e h.header_fields [] (1 + 1 + 1 + 1 + 32 / 8 + 32 / 8) with
  | error err => simp [Except.map]
  | ok r => simp [Except.map, List.append_assoc]

/-- C10. `Message::write` is deterministic: its outcome is a function of the
`Message` value alone — encoding onto any sink yields exactly the bytes of
the encoding onto a fresh empty sink, appended after the prior contents, with
the same returned count. In particular two invocations on two fresh sinks
emit identical byte sequences and return equal counts; the encoder consults
no state besides the message. -/
theorem message_write_deterministic (m : Message) (sink : List Nat) :
    message_write m sink =
      Except.map (fun r => (sink ++ r.1, r.2)) (message_write m []) := by
  cases hf : m.header.endianess_flag <;>
    · simp only [message_write, hf]
      rw [header_write_append _ m.header sink, header_write_append _ m.header []]
      cases header_write _ m.header [] with
      | error err => simp [Except.map]
      | ok r => simp [Except.map, body_write]

end DbusNative
